import Mathlib

/-!
Verification of the batch-compress orchestration engine (src/main.py).

The Python source is shallowly embedded: pure helpers become Lean functions,
the external collaborators (the 7z process, the filesystem, the interactive
prompt) become explicit oracle fields of a `World` record, and the
orchestrator `compress_in_batches` becomes a total function from a `World`
and the run parameters to a `RunResult` that also records the observable
effects (directory creation, prompting, tool invocations, metadata export)
as an event trace.
-/

namespace BatchCompress

/-! ## Glob matching (model of Python fnmatch.fnmatch on POSIX)

Python's `fnmatch.fnmatch(name, pat)` applies `os.path.normcase` to both
arguments (the identity on POSIX) and then matches with the translated
pattern: `*` matches any character sequence (including `/`), `?` matches any
single character, `[seq]` matches one character of `seq` (with ranges,
`[!seq]` negated, a leading `]` taken literally), and an unterminated `[`
is a literal `[`.  The matcher is written with an explicit fuel argument so
that it is structurally recursive; each recursive call strictly decreases
`pattern.length + s.length`, so `p.length + s.length + 1` fuel always
suffices. -/

/-- Scan a bracket body for the closing bracket, returning the characters of
the class and the rest of the pattern. -/
def findClose : List Char → Option (List Char × List Char)
  | [] => none
  | ']' :: rest => some ([], rest)
  | c :: rest =>
    match findClose rest with
    | some (seq, rest') => some (c :: seq, rest')
    | none => none

/-- Split the pattern after a `[`: detect negation, keep a leading `]` as a
literal member of the class, and locate the closing bracket. -/
def splitBracket : List Char → Option (Bool × List Char × List Char)
  | '!' :: rest =>
    match rest with
    | ']' :: rest2 => (findClose rest2).map (fun pr => (true, ']' :: pr.1, pr.2))
    | _ => (findClose rest).map (fun pr => (true, pr.1, pr.2))
  | ']' :: rest2 => (findClose rest2).map (fun pr => (false, ']' :: pr.1, pr.2))
  | cs => (findClose cs).map (fun pr => (false, pr.1, pr.2))

/-- Membership of a character in a bracket class, honouring ranges; a hyphen
in the last position is literal, and an empty range matches nothing. -/
def memBracket (c : Char) : List Char → Bool
  | [] => false
  | [a] => c == a
  | [a, '-'] => c == a || c == '-'
  | a :: '-' :: b :: rest => (a ≤ c && c ≤ b) || memBracket c rest
  | a :: rest => c == a || memBracket c rest

/-- Fuel-indexed glob matcher; `globMatch` supplies adequate fuel. -/
def globMatchFuel : Nat → List Char → List Char → Bool
  | 0, _, _ => false
  | fuel + 1, p, s =>
    match p, s with
    | [], [] => true
    | [], _ :: _ => false
    | '*' :: ps, s =>
      globMatchFuel fuel ps s ||
        (match s with
         | [] => false
         | _ :: s' => globMatchFuel fuel ('*' :: ps) s')
    | '?' :: ps, s =>
      (match s with
       | [] => false
       | _ :: s' => globMatchFuel fuel ps s')
    | '[' :: ps, s =>
      (match splitBracket ps with
       | some (neg, seq, ps') =>
         (match s with
          | [] => false
          | c :: s' =>
            (if neg then !(memBracket c seq) else memBracket c seq) &&
              globMatchFuel fuel ps' s')
       | none =>
         (match s with
          | '[' :: s' => globMatchFuel fuel ps s'
          | _ => false))
    | pc :: ps, s =>
      (match s with
       | c :: s' => pc == c && globMatchFuel fuel ps s'
       | [] => false)

/-- Model of `fnmatch.fnmatch(name, pat)` on POSIX. -/
def fnmatch (name pat : String) : Bool :=
  globMatchFuel (pat.length + name.length + 1) pat.data name.data

/-! ## File catalog (get_files_recursive / get_files_flat)

The scanned input directory is modelled as the list of entries the recursive
walk `folder.rglob('*')` yields: each entry carries its path relative to the
scanned root, whether it is a regular file, and its stat size.
`folder.iterdir()` yields exactly those entries whose relative path has a
single component.  The enumeration order of the walk is arbitrary; both
functions sort their result, as the source does with `sorted(files)` (Path
ordering is componentwise lexicographic on the path parts). -/

structure ScanEntry where
  relPath : String
  isFile : Bool
  size : Nat
deriving DecidableEq, Repr

/-- A catalogued file: the path string `str(f)` as seen by the source, its
base name `f.name`, and its stat size. -/
structure FileEntry where
  path : String
  name : String
  size : Nat
deriving DecidableEq, Repr

/-- Characters after the last slash, accumulating the current component. -/
def baseNameChars : List Char → List Char → List Char
  | [], acc => acc.reverse
  | '/' :: rest, _ => baseNameChars rest []
  | c :: rest, acc => baseNameChars rest (c :: acc)

/-- Model of `Path.name`: the last component of the path string. -/
def baseName (s : String) : String :=
  ⟨baseNameChars s.data []⟩

/-- Joining the scanned root (assumed normalized, no trailing slash) with a
relative path, as `str(folder / rel)` produces. -/
def joinPath (root rel : String) : String :=
  root ++ "/" ++ rel

def toFileEntry (root : String) (e : ScanEntry) : FileEntry :=
  { path := joinPath root e.relPath, name := baseName e.relPath, size := e.size }

/-- Exclusion test of `get_files_recursive` (src/main.py lines 202-206):
a pattern excludes the file when it matches `f.name` or `str(f)`. -/
def excludedRec (root : String) (excludePatterns : List String) (e : ScanEntry) : Bool :=
  excludePatterns.any (fun p =>
    fnmatch (baseName e.relPath) p || fnmatch (joinPath root e.relPath) p)

/-- Exclusion test of `get_files_flat` (src/main.py lines 227-231):
a pattern excludes the file when it matches `f.name` only. -/
def excludedFlat (excludePatterns : List String) (e : ScanEntry) : Bool :=
  excludePatterns.any (fun p => fnmatch (baseName e.relPath) p)

/-- An entry of the recursive walk that `folder.iterdir()` also yields:
its relative path has a single component. -/
def isDirectChild (e : ScanEntry) : Bool :=
  !(e.relPath.data.contains '/')

/-- Splitting a character list at every slash into path components. -/
def splitSlash : List Char → List (List Char)
  | [] => [[]]
  | '/' :: rest => [] :: splitSlash rest
  | c :: rest =>
    match splitSlash rest with
    | [] => [[c]]
    | g :: gs => (c :: g) :: gs

/-- Strict lexicographic comparison of character lists, the order `<` uses
on strings. -/
def charListLt : List Char → List Char → Bool
  | [], [] => false
  | [], _ :: _ => true
  | _ :: _, [] => false
  | a :: as, b :: bs => a < b || (a == b && charListLt as bs)

/-- Componentwise lexicographic order on split paths, the order in which
`sorted` arranges `Path` values (comparison of the `parts` tuples). -/
def partsLe : List (List Char) → List (List Char) → Bool
  | [], _ => true
  | _ :: _, [] => false
  | x :: xs, y :: ys => charListLt x y || (x == y && partsLe xs ys)

def pathLe (a b : FileEntry) : Bool :=
  partsLe (splitSlash a.path.data) (splitSlash b.path.data)

/-- Model of `sorted(files)`: a stable sort by the Path order.  Python's
`sorted` is a stable sort; with a total preorder key any stable sort
produces the same list. -/
def sortFiles (files : List FileEntry) : List FileEntry :=
  List.insertionSort (fun a b => pathLe a b = true) files

/-- Model of `get_files_recursive` (src/main.py lines 187-209). -/
def getFilesRecursive (root : String) (entries : List ScanEntry)
    (excludePatterns : List String) : List FileEntry :=
  sortFiles
    ((entries.filter (fun e => e.isFile && !(excludedRec root excludePatterns e))).map
      (toFileEntry root))

/-- Model of `get_files_flat` (src/main.py lines 212-234). -/
def getFilesFlat (root : String) (entries : List ScanEntry)
    (excludePatterns : List String) : List FileEntry :=
  sortFiles
    ((entries.filter (fun e =>
        isDirectChild e && e.isFile && !(excludedFlat excludePatterns e))).map
      (toFileEntry root))

/-! ## Archive executor (compress_batch) and verification (verify_archive)

The external 7z process is an opaque collaborator.  Its behaviour for one
invocation is modelled by a `SpawnResult`: either `subprocess.run` returned a
completed process (with a return code and a captured stderr), or it raised
`FileNotFoundError` (tool binary missing at invocation time), or some other
exception was raised. -/

inductive SpawnResult where
  | completed (returncode : Int) (stderr : String)
  | fileNotFoundError
  | otherError (msg : String)
deriving DecidableEq, Repr

/-- Password arguments of the 7z command line (src/main.py lines 259-261):
`if password:` is Python truthiness, so `None` and the empty string add
nothing; otherwise both the password and the header-encryption switch are
appended together. -/
def passwordArgs (password : Option String) : List String :=
  match password with
  | some pw => if pw == "" then [] else ["-p" ++ pw, "-mhe=on"]
  | none => []

/-- Split-volume arguments of the 7z command line (src/main.py lines 263-265),
with the same truthiness rule. -/
def splitArgs (splitSize : Option String) : List String :=
  match splitSize with
  | some v => if v == "" then [] else ["-v" ++ v]
  | none => []

/-- Command line built by `compress_batch` (src/main.py lines 257-267). -/
def buildCmd (batchFiles : List String) (archiveName : String)
    (compressionLevel : Nat) (password : Option String)
    (splitSize : Option String) : List String :=
  ["7z", "a", "-mx=" ++ toString compressionLevel, archiveName]
    ++ passwordArgs password
    ++ splitArgs splitSize
    ++ batchFiles

/-- Outcome of `compress_batch` (src/main.py lines 272-298).  `statAfter`
models `archive_name.exists()` / `archive_name.stat().st_size` after the tool
ran: `some n` when the archive file exists with size `n`, `none` when it is
absent.  Every exception of the invocation is caught and converted to the
failure value `(False, None)`; the function never raises. -/
def compressBatch (spawn : SpawnResult) (statAfter : Option Nat) : Bool × Option Nat :=
  match spawn with
  | .completed returncode _ =>
    if returncode == 0 then (true, statAfter) else (false, none)
  | .fileNotFoundError => (false, none)
  | .otherError _ => (false, none)

/-! ## Batch planning (compress_in_batches, lines 387 and 411-426) -/

/-- Model of Python `range(0, stop, step)` for `step ≥ 1`: the multiples of
`step` below `stop`, in increasing order. -/
def pyRange (stop step : Nat) : List Nat :=
  (List.range stop).filter (fun i => i % step == 0)

/-- The batch slices the planning loop enumerates before the skip-if-exists
check: for each loop index `i` of `range(0, len(files), batch_size)` the
slice `files[i : i + batch_size]` (src/main.py lines 411-413). -/
def planBatchesPre (files : List α) (batchSize : Nat) : List (List α) :=
  (pyRange files.length batchSize).map (fun i => (files.drop i).take batchSize)

/-- The displayed plan total `total_batches` (src/main.py line 387). -/
def totalBatchCount (fileCount batchSize : Nat) : Nat :=
  (fileCount + batchSize - 1) / batchSize

/-- Target archive path of batch `num` (src/main.py line 414).  The archive
filename stem is `output_prefix` in the source. -/
def archivePath (outputFolder stem ext : String) (num : Nat) : String :=
  outputFolder ++ "/" ++ stem ++ "_" ++ toString num ++ "." ++ ext

structure PlannedBatch where
  num : Nat
  files : List FileEntry
  archiveName : String
  inputSize : Nat
deriving DecidableEq, Repr

/-- The execution plan (src/main.py lines 411-422): each slice of the
planning loop becomes a `PlannedBatch` unless its target path already exists
while overwrite is off, in which case the loop `continue`s past it.
`existsBefore` models `archive_name.exists()` against the pre-run
filesystem. -/
def computeBatches (existsBefore : String → Bool) (overwrite : Bool)
    (outputFolder stem ext : String) (files : List FileEntry)
    (batchSize : Nat) : List PlannedBatch :=
  (pyRange files.length batchSize).filterMap (fun i =>
    let num := i / batchSize + 1
    let name := archivePath outputFolder stem ext num
    if existsBefore name && !overwrite then none
    else
      some { num := num
             files := (files.drop i).take batchSize
             archiveName := name
             inputSize := (((files.drop i).take batchSize).map FileEntry.size).sum })

/-! ## Result aggregation (compress_in_batches, lines 446-497) -/

/-- Per-batch record appended to `metadata["archives"]`
(src/main.py lines 485-492). -/
structure ArchiveRecord where
  batchNum : Nat
  archiveName : String
  fileCount : Nat
  inputSize : Nat
  outputSize : Option Nat
  files : List String
deriving DecidableEq, Repr

def mkRecord (b : PlannedBatch) (archiveSize : Option Nat) : ArchiveRecord :=
  { batchNum := b.num
    archiveName := baseName b.archiveName
    fileCount := b.files.length
    inputSize := b.inputSize
    outputSize := archiveSize
    files := b.files.map FileEntry.name }

/-- Mutable aggregation state of the collection loop: `success_count`,
`fail_count`, `total_output_size` and the `metadata["archives"]` list. -/
structure Agg where
  successCount : Nat
  failCount : Nat
  totalOutputSize : Nat
  archives : List ArchiveRecord
deriving DecidableEq, Repr

def Agg.init : Agg :=
  { successCount := 0, failCount := 0, totalOutputSize := 0, archives := [] }

/-- What `future.result()` delivers for one batch: the value returned by
`compress_batch`, or an exception raised while producing it. -/
inductive WorkerResult where
  | res (r : Bool × Option Nat)
  | exn (msg : String)
deriving DecidableEq, Repr

/-- One iteration of the collection loop over completed futures
(src/main.py lines 469-497).  `verify` is the run's verify flag and `vOk` is
the value `verify_archive(archive_name)` would return for this batch; the
source consults it only when `verify` is on and compression succeeded.
`if archive_size:` is Python truthiness, so a missing or zero-sized archive
adds nothing to `total_output_size`. -/
def collectStep (verify : Bool) (vOk : Bool) (b : PlannedBatch) (st : Agg)
    (r : WorkerResult) : Agg :=
  match r with
  | .exn _ => { st with failCount := st.failCount + 1 }
  | .res (success, archiveSize) =>
    if success then
      let st1 : Agg :=
        { st with
          successCount := st.successCount + 1
          totalOutputSize :=
            match archiveSize with
            | some n => if n == 0 then st.totalOutputSize else st.totalOutputSize + n
            | none => st.totalOutputSize }
      if verify && !vOk then
        { st1 with successCount := st1.successCount - 1, failCount := st1.failCount + 1 }
      else
        { st1 with archives := st1.archives ++ [mkRecord b archiveSize] }
    else
      { st with failCount := st.failCount + 1 }

/-! ## The orchestrator (compress_in_batches) -/

/-- Observable effects of a run, in order of occurrence. -/
inductive Event where
  | mkdirOutput (dir : String)
  | prompt
  | ranCompress (num : Nat)
  | ranVerify (num : Nat)
  | wroteMetadata (path : String)
deriving DecidableEq, Repr

/-- Everything the run's environment decides: the scanned entries of the
input folder, which paths exist before the run, the behaviour of each 7z
invocation per batch number (`spawn` and `statAfter` for `7z a`, `verifyOk`
for `7z t`), and the normalized reply `input().strip().lower()` to the
confirmation prompt. -/
structure World where
  entries : List ScanEntry
  existsBefore : String → Bool
  spawn : Nat → SpawnResult
  statAfter : Nat → Option Nat
  verifyOk : Nat → Bool
  confirmReply : String

structure RunParams where
  inputFolder : String
  outputFolder : String
  batchSize : Nat
  outputStem : String
  ext : String
  auto : Bool
  dryRun : Bool
  compressionLevel : Nat
  excludePatterns : List String
  overwrite : Bool
  password : Option String
  splitSize : Option String
  verify : Bool
  recursive : Bool
  metadataFile : Option String

/-- One step of the worker pool as observed by the collection loop: run
`compress_batch` for the batch, verify when requested and successful, and
fold the outcome into the aggregate.  The thread pool completes futures in
an unspecified order; the embedding processes them in submission order,
which is immaterial for the counters and sums (each step touches only its
own batch's contribution) and fixes one admissible order for the record
list and the event trace. -/
def execStep (w : World) (verify : Bool) (acc : Agg × List Event)
    (b : PlannedBatch) : Agg × List Event :=
  let r := compressBatch (w.spawn b.num) (w.statAfter b.num)
  let evs := acc.2 ++ [Event.ranCompress b.num]
      ++ (if verify && r.1 then [Event.ranVerify b.num] else [])
  (collectStep verify (w.verifyOk b.num) b acc.1 (WorkerResult.res r), evs)

def runBatches (w : World) (verify : Bool) (bs : List PlannedBatch) :
    Agg × List Event :=
  bs.foldl (execStep w verify) (Agg.init, [])

/-- The compression ratio of src/main.py line 508, as an exact rational
percentage (the source computes it in floating point). -/
def ratioPercent (totalOutputSize totalInputSize : Nat) : ℚ :=
  if 0 < totalInputSize then
    (1 - (totalOutputSize : ℚ) / (totalInputSize : ℚ)) * 100
  else 0

/-- The metadata object exported at src/main.py lines 400-409 and 506-511
(`created_at`, a wall-clock timestamp, is omitted). -/
structure Metadata where
  inputFolder : String
  outputFolder : String
  totalFiles : Nat
  totalInputSize : Nat
  batchSize : Nat
  compressionLevel : Nat
  archives : List ArchiveRecord
  totalOutputSize : Nat
  ratioValue : ℚ
deriving DecidableEq, Repr

/-- Which return statement of `compress_in_batches` ended the run: the
"No files found" signal (line 382), the "No batches to process" signal
(line 426), the dry-run return (line 436), the declined confirmation
(line 443), or the final return after execution (line 514). -/
inductive ExitPath where
  | noFiles
  | nothingToDo
  | dryRunDone
  | cancelled
  | executed
deriving DecidableEq, Repr

/-- The observable outcome of one run: the returned tuple
`(success_count, fail_count, total_input_size, total_output_size)`, which
return ended the run, the logged plan total `total_batches`, the exported
metadata (if any) and the effect trace. -/
structure RunResult where
  path : ExitPath
  successCount : Nat
  failCount : Nat
  totalInputSize : Nat
  totalOutputSize : Nat
  displayTotal : Nat
  metadataOut : Option Metadata
  events : List Event
deriving DecidableEq, Repr

/-- The file catalog `compress_in_batches` works on
(src/main.py lines 374-378). -/
def catalogFiles (w : World) (p : RunParams) : List FileEntry :=
  if p.recursive then getFilesRecursive p.inputFolder w.entries p.excludePatterns
  else getFilesFlat p.inputFolder w.entries p.excludePatterns

/-- Model of `compress_in_batches` (src/main.py lines 329-514), following its
control flow: catalog, empty-catalog return, plan, mkdir of the output
folder, empty-plan return, dry-run return, confirmation, execution under the
pool, metadata export (only when requested by a truthy path and at least one
batch succeeded), final return. -/
def compressInBatches (w : World) (p : RunParams) : RunResult :=
  let files := catalogFiles w p
  if files.isEmpty then
    { path := .noFiles, successCount := 0, failCount := 0, totalInputSize := 0
      totalOutputSize := 0, displayTotal := 0, metadataOut := none, events := [] }
  else
    let totalInputSize := (files.map FileEntry.size).sum
    let totalBatches := totalBatchCount files.length p.batchSize
    let ev0 := [Event.mkdirOutput p.outputFolder]
    let batches := computeBatches w.existsBefore p.overwrite p.outputFolder
        p.outputStem p.ext files p.batchSize
    if batches.isEmpty then
      { path := .nothingToDo, successCount := 0, failCount := 0
        totalInputSize := totalInputSize, totalOutputSize := 0
        displayTotal := totalBatches, metadataOut := none, events := ev0 }
    else if p.dryRun then
      { path := .dryRunDone, successCount := batches.length, failCount := 0
        totalInputSize := totalInputSize, totalOutputSize := 0
        displayTotal := totalBatches, metadataOut := none, events := ev0 }
    else if !p.auto && w.confirmReply != "y" then
      { path := .cancelled, successCount := 0, failCount := 0
        totalInputSize := totalInputSize, totalOutputSize := 0
        displayTotal := totalBatches, metadataOut := none
        events := ev0 ++ [Event.prompt] }
    else
      let promptEvs := if p.auto then [] else [Event.prompt]
      let run := runBatches w p.verify batches
      let agg := run.1
      let wantMetadata :=
        match p.metadataFile with
        | some f => f != "" && 0 < agg.successCount
        | none => false
      let metadataOut :=
        if wantMetadata then
          some { inputFolder := p.inputFolder
                 outputFolder := p.outputFolder
                 totalFiles := files.length
                 totalInputSize := totalInputSize
                 batchSize := p.batchSize
                 compressionLevel := p.compressionLevel
                 archives := agg.archives
                 totalOutputSize := agg.totalOutputSize
                 ratioValue := ratioPercent agg.totalOutputSize totalInputSize }
        else none
      let metaEvs :=
        match p.metadataFile with
        | some f => if f != "" && 0 < agg.successCount then [Event.wroteMetadata f] else []
        | none => []
      { path := .executed
        successCount := agg.successCount
        failCount := agg.failCount
        totalInputSize := totalInputSize
        totalOutputSize := agg.totalOutputSize
        displayTotal := totalBatches
        metadataOut := metadataOut
        events := ev0 ++ promptEvs ++ run.2 ++ metaEvs }

/-! ## Concrete fixtures used by witnesses and counterexamples -/

/-- Catalog for the C1 witness. -/
def filesC1 : List FileEntry :=
  [{ path := "in/a.txt", name := "a.txt", size := 1 },
   { path := "in/b.txt", name := "b.txt", size := 2 },
   { path := "in/c.txt", name := "c.txt", size := 3 }]

/-- World with one plain input file and a cooperative tool. -/
def wBase : World :=
  { entries := [{ relPath := "a.txt", isFile := true, size := 10 }]
    existsBefore := fun _ => false
    spawn := fun _ => SpawnResult.completed 0 ""
    statAfter := fun _ => some 4
    verifyOk := fun _ => true
    confirmReply := "y" }

/-- Baseline parameters: flat scan of "in" into "out", one batch of up to 80
files, automatic confirmation, no verification, no metadata. -/
def pBase : RunParams :=
  { inputFolder := "in", outputFolder := "out", batchSize := 80
    outputStem := "archive", ext := "7z", auto := true, dryRun := false
    compressionLevel := 5, excludePatterns := [], overwrite := false
    password := none, splitSize := none, verify := false, recursive := false
    metadataFile := none }

/-- Dry-run fixture for C3. -/
def pC3 : RunParams := { pBase with dryRun := true }

/-- Fixture for C4: verification is on and fails for the only batch, whose
archive was produced with size 100. -/
def wC4 : World := { wBase with statAfter := fun _ => some 100, verifyOk := fun _ => false }

def pC4 : RunParams := { pBase with verify := true }

/-- Fixture for C6: two files, one file per batch, and the first batch's
target archive already exists. -/
def wC6 : World :=
  { wBase with
    entries := [{ relPath := "a.txt", isFile := true, size := 1 },
                { relPath := "b.txt", isFile := true, size := 1 }]
    existsBefore := fun s => s == "out/archive_1.7z"
    statAfter := fun _ => some 1 }

def pC6 : RunParams := { pBase with batchSize := 1 }

/-- Fixture for C6's all-skipped case: every target archive exists. -/
def wC6all : World := { wC6 with existsBefore := fun _ => true }

/-- Fixture for C7: a metadata destination is requested. -/
def pC7 : RunParams := { pBase with metadataFile := some "meta.json" }

/-- The metadata object the C7 fixture run exports. -/
def mC7 : Metadata :=
  { inputFolder := "in", outputFolder := "out", totalFiles := 1
    totalInputSize := 10, batchSize := 80, compressionLevel := 5
    archives := [{ batchNum := 1, archiveName := "archive_1.7z", fileCount := 1
                   inputSize := 10, outputSize := some 4, files := ["a.txt"] }]
    totalOutputSize := 4, ratioValue := ratioPercent 4 10 }

/-- Total output contributed by one batch's `compress_batch` value: the
archive size when compression succeeded and the size is truthy, else
nothing (src/main.py lines 473-476). -/
def outContribution (r : Bool × Option Nat) : Nat :=
  if r.1 then (match r.2 with | some n => n | none => 0) else 0

end BatchCompress

namespace BatchCompress

/-! ## General lemmas about the embedded definitions -/

theorem mem_sortFiles {f : FileEntry} {l : List FileEntry} :
    f ∈ sortFiles l ↔ f ∈ l :=
  List.mem_insertionSort _

theorem pyRange_zero (B : Nat) : pyRange 0 B = [] := rfl

theorem pyRange_succ (N B : Nat) :
    pyRange (N + 1) B = pyRange N B ++ (if N % B == 0 then [N] else []) := by
  unfold pyRange
  rw [List.range_succ, List.filter_append, List.filter_singleton]
  cases h : (N % B == 0) <;> simp [h]

theorem ceilDiv_succ {B : Nat} (N : Nat) (hB : 0 < B) :
    (N + 1 + B - 1) / B = N / B + 1 := by
  have h : N + 1 + B - 1 = N + B := by omega
  rw [h, Nat.add_div_right _ hB]

theorem ceilDiv_of_mod_eq_zero {N B : Nat} (hB : 0 < B) (h : N % B = 0) :
    (N + B - 1) / B = N / B := by
  obtain ⟨q, hq⟩ := Nat.dvd_of_mod_eq_zero h
  subst hq
  rw [Nat.add_sub_assoc (show 1 ≤ B by omega), Nat.mul_add_div hB,
    Nat.div_eq_of_lt (show B - 1 < B by omega), Nat.add_zero,
    Nat.mul_div_cancel_left q hB]

theorem ceilDiv_of_mod_ne_zero {N B : Nat} (hB : 0 < B) (h : N % B ≠ 0) :
    (N + B - 1) / B = N / B + 1 := by
  have hq := Nat.div_add_mod N B
  have hr1 : 1 ≤ N % B := Nat.one_le_iff_ne_zero.mpr h
  have hrB : N % B < B := Nat.mod_lt _ hB
  conv_lhs => rw [← hq]
  rw [Nat.add_assoc, Nat.add_sub_assoc (show 1 ≤ N % B + B by omega),
    Nat.mul_add_div hB,
    Nat.div_eq_of_lt_le (show 1 * B ≤ N % B + B - 1 by omega)
      (show N % B + B - 1 < (1 + 1) * B by omega)]

theorem pyRange_eq_map {B : Nat} (hB : 0 < B) (N : Nat) :
    pyRange N B = (List.range ((N + B - 1) / B)).map (· * B) := by
  induction N with
  | zero =>
    rw [pyRange_zero]
    have h0 : (0 + B - 1) / B = 0 := Nat.div_eq_of_lt (by omega)
    rw [h0]
    rfl
  | succ N ih =>
    rw [pyRange_succ, ih, ceilDiv_succ N hB]
    by_cases h : N % B = 0
    · rw [ceilDiv_of_mod_eq_zero hB h, List.range_succ, List.map_append]
      have hNB : N / B * B = N := Nat.div_mul_cancel (Nat.dvd_of_mod_eq_zero h)
      simp [h, hNB]
    · rw [ceilDiv_of_mod_ne_zero hB h, List.range_succ, List.map_append]
      simp [h]

theorem planBatchesPre_length {α : Type} {B : Nat} (hB : 0 < B) (files : List α) :
    (planBatchesPre files B).length = totalBatchCount files.length B := by
  unfold planBatchesPre totalBatchCount
  rw [pyRange_eq_map hB]
  simp

theorem planBatchesPre_eq_chunks {α : Type} {B : Nat} (hB : 0 < B) (files : List α) :
    planBatchesPre files B =
      (List.range (totalBatchCount files.length B)).map
        (fun k => (files.drop (k * B)).take B) := by
  unfold planBatchesPre totalBatchCount
  rw [pyRange_eq_map hB, List.map_map]
  rfl

theorem planBatchesPre_getElem {α : Type} {B k : Nat} {files : List α} (hB : 0 < B)
    (hk : k < totalBatchCount files.length B) :
    (planBatchesPre files B)[k]? = some ((files.drop (k * B)).take B) := by
  rw [planBatchesPre_eq_chunks hB, List.getElem?_map, List.getElem?_range hk]
  rfl

theorem planBatchesPre_cons {α : Type} {B : Nat} (hB : 0 < B) {l : List α}
    (hl : l ≠ []) :
    planBatchesPre l B = l.take B :: planBatchesPre (l.drop B) B := by
  rw [planBatchesPre_eq_chunks hB, planBatchesPre_eq_chunks hB]
  have hN : 1 ≤ l.length := List.length_pos.mpr hl
  have hcount :
      totalBatchCount l.length B = totalBatchCount (l.drop B).length B + 1 := by
    unfold totalBatchCount
    rw [List.length_drop]
    rcases Nat.le_total l.length B with hle | hge
    · have h1 : (l.length + B - 1) / B = 1 :=
        Nat.div_eq_of_lt_le (by omega) (by omega)
      have h0 : l.length - B = 0 := by omega
      have h2 : (l.length - B + B - 1) / B = 0 := by
        rw [h0]; exact Nat.div_eq_of_lt (by omega)
      omega
    · have hstep : l.length + B - 1 = l.length - B + B - 1 + B := by omega
      rw [hstep, Nat.add_div_right _ hB]
  rw [hcount, List.range_succ_eq_map, List.map_cons, List.map_map]
  congr 1
  · simp
  · apply List.map_congr_left
    intro k _
    show (l.drop (Nat.succ k * B)).take B = ((l.drop B).drop (k * B)).take B
    rw [List.drop_drop, Nat.succ_mul, Nat.add_comm]

theorem planBatchesPre_flatten_aux {α : Type} {B : Nat} (hB : 0 < B) :
    ∀ (n : Nat) (l : List α), l.length ≤ n → (planBatchesPre l B).flatten = l := by
  intro n
  induction n with
  | zero =>
    intro l hl
    have h0 : l = [] := List.eq_nil_of_length_eq_zero (by omega)
    subst h0
    rfl
  | succ n ih =>
    intro l hl
    rcases l with _ | ⟨x, xs⟩
    · rfl
    · rw [planBatchesPre_cons hB (by simp), List.flatten_cons,
        ih _ (by rw [List.length_drop]; simp at hl ⊢; omega)]
      exact List.take_append_drop B (x :: xs)

theorem planBatchesPre_flatten {α : Type} {B : Nat} (hB : 0 < B) (l : List α) :
    (planBatchesPre l B).flatten = l :=
  planBatchesPre_flatten_aux hB l.length l le_rfl

theorem collectStep_totalOut (v vOk : Bool) (b : PlannedBatch) (st : Agg)
    (r : Bool × Option Nat) :
    (collectStep v vOk b st (WorkerResult.res r)).totalOutputSize
      = st.totalOutputSize + outContribution r := by
  obtain ⟨success, sz⟩ := r
  cases success
  · simp [collectStep, outContribution]
  · cases sz with
    | none => cases v <;> cases vOk <;> simp [collectStep, outContribution]
    | some n =>
      by_cases hn : n = 0 <;>
        cases v <;> cases vOk <;> simp [collectStep, outContribution, hn]

theorem execStep_eq (w : World) (v : Bool) (st : Agg) (evs : List Event)
    (b : PlannedBatch) :
    execStep w v (st, evs) b
      = (collectStep v (w.verifyOk b.num) b st
           (WorkerResult.res (compressBatch (w.spawn b.num) (w.statAfter b.num))),
         evs ++ [Event.ranCompress b.num]
           ++ (if v && (compressBatch (w.spawn b.num) (w.statAfter b.num)).1
               then [Event.ranVerify b.num] else [])) := rfl

theorem foldl_execStep_totalOut (w : World) (v : Bool) :
    ∀ (bs : List PlannedBatch) (st : Agg) (evs : List Event),
    ((bs.foldl (execStep w v) (st, evs)).1).totalOutputSize
      = st.totalOutputSize
        + (bs.map (fun b =>
            outContribution (compressBatch (w.spawn b.num) (w.statAfter b.num)))).sum := by
  intro bs
  induction bs with
  | nil => intro st evs; simp
  | cons b bs ih =>
    intro st evs
    rw [List.foldl_cons, execStep_eq, ih, collectStep_totalOut]
    simp [Nat.add_assoc]

/-- The final `total_output_size` is the sum, over all dispatched batches, of
the archive size `compress_batch` reported on success (truthy sizes only);
every compression success contributes, whether or not verification later
demotes the batch. -/
theorem runBatches_totalOut (w : World) (v : Bool) (bs : List PlannedBatch) :
    (runBatches w v bs).1.totalOutputSize
      = (bs.map (fun b =>
          outContribution (compressBatch (w.spawn b.num) (w.statAfter b.num)))).sum := by
  unfold runBatches
  rw [foldl_execStep_totalOut]
  simp [Agg.init]

theorem foldl_execStep_events (w : World) (v : Bool) :
    ∀ (bs : List PlannedBatch) (st : Agg) (evs : List Event) (n : Nat),
    Event.ranCompress n ∈ (bs.foldl (execStep w v) (st, evs)).2 →
    Event.ranCompress n ∈ evs ∨ ∃ b ∈ bs, b.num = n := by
  intro bs
  induction bs with
  | nil => intro st evs n h; exact Or.inl (by simpa using h)
  | cons b bs ih =>
    intro st evs n h
    rw [List.foldl_cons, execStep_eq] at h
    rcases ih _ _ _ h with hin | ⟨b', hb', hn⟩
    · rw [List.append_assoc, List.mem_append] at hin
      rcases hin with hin | hin
      · exact Or.inl hin
      · right
        refine ⟨b, List.mem_cons_self b bs, ?_⟩
        rcases List.mem_append.mp hin with hin | hin
        · cases List.mem_singleton.mp hin; rfl
        · split at hin <;> simp at hin
    · exact Or.inr ⟨b', List.mem_cons_of_mem _ hb', hn⟩

theorem mem_computeBatches {ex : String → Bool} {ow : Bool}
    {oF stem ext : String} {files : List FileEntry} {B : Nat} {b : PlannedBatch}
    (hb : b ∈ computeBatches ex ow oF stem ext files B) :
    b.archiveName = archivePath oF stem ext b.num ∧
      (ex b.archiveName && !ow) = false := by
  simp only [computeBatches, List.mem_filterMap] at hb
  obtain ⟨i, _, hif⟩ := hb
  split at hif
  · exact absurd hif (by simp)
  · next hc =>
    rcases Option.some.inj hif with rfl
    exact ⟨rfl, Bool.not_eq_true _ ▸ eq_false_of_ne_true hc⟩

/-! ## Claim theorems -/

/-- C1: for every catalogued file list and every batch size B ≥ 1, the
planning loop enumerates `(N + B - 1) / B = ceil(N / B)` batch slices
(before skip-if-exists filtering), batch k (1-based) holding exactly the
entries at offsets [(k-1)·B, k·B) of the sorted list; the slices concatenate
back to the whole filtered catalog, and — the catalog having no duplicate
entries — they are pairwise disjoint. -/
theorem c1_batch_partition (files : List FileEntry) (B : Nat) (hB : 1 ≤ B)
    (hnd : files.Nodup) :
    (planBatchesPre files B).length = totalBatchCount files.length B ∧
    (∀ k, 1 ≤ k → k ≤ totalBatchCount files.length B →
      (planBatchesPre files B)[k - 1]? = some ((files.drop ((k - 1) * B)).take B)) ∧
    (planBatchesPre files B).flatten = files ∧
    List.Pairwise List.Disjoint (planBatchesPre files B) := by
  have hB0 : 0 < B := hB
  refine ⟨planBatchesPre_length hB0 files, ?_,
    planBatchesPre_flatten hB0 files, ?_⟩
  · intro k hk1 hk2
    exact planBatchesPre_getElem hB0 (by omega)
  · have hflat := planBatchesPre_flatten hB0 files
    have hnd2 : (planBatchesPre files B).flatten.Nodup := by rw [hflat]; exact hnd
    exact (List.nodup_flatten.mp hnd2).2

/-- C1 witness: the partition facts instantiated on a three-file catalog
with batch size 2. -/
theorem c1_batch_partition_witness :
    (planBatchesPre filesC1 2).length = totalBatchCount filesC1.length 2 ∧
    (∀ k, 1 ≤ k → k ≤ totalBatchCount filesC1.length 2 →
      (planBatchesPre filesC1 2)[k - 1]? = some ((filesC1.drop ((k - 1) * 2)).take 2)) ∧
    (planBatchesPre filesC1 2).flatten = filesC1 ∧
    List.Pairwise List.Disjoint (planBatchesPre filesC1 2) :=
  c1_batch_partition filesC1 2 (by decide) (by decide)

/-- C2: when verification is enabled and fails for a batch whose compression
succeeded, the collection step leaves `success_count` unchanged overall (the
increment is taken back by the decrement, `st.successCount + 1 - 1`) and
increments `fail_count` by exactly one, so in the aggregate totals that
batch counts as exactly one failure and never also as a success. -/
theorem c2_verify_demotion (b : PlannedBatch) (st : Agg) (sz : Option Nat) :
    (collectStep true false b st (WorkerResult.res (true, sz))).successCount
        = st.successCount ∧
    (collectStep true false b st (WorkerResult.res (true, sz))).failCount
        = st.failCount + 1 := by
  cases sz with
  | none => simp [collectStep]
  | some n => by_cases hn : n = 0 <;> simp [collectStep, hn]

/-- C8: every failure of the external-tool invocation — the binary missing
at invocation time, a spawn error, any other error — is caught inside
`compress_batch` and becomes the returned failure value `(False, None)` for
that batch (the embedded function is total: nothing is raised), and the
collection loop converts a worker exception, or a failed batch result, into
an increment of the failure counter only, leaving every other aggregate
component untouched — sibling batches are unaffected. -/
theorem c8_tool_failure_isolated :
    (∀ statAfter : Option Nat,
        compressBatch SpawnResult.fileNotFoundError statAfter = (false, none)) ∧
    (∀ (msg : String) (statAfter : Option Nat),
        compressBatch (SpawnResult.otherError msg) statAfter = (false, none)) ∧
    (∀ (v vOk : Bool) (b : PlannedBatch) (st : Agg) (msg : String),
        collectStep v vOk b st (WorkerResult.exn msg)
          = { st with failCount := st.failCount + 1 }) ∧
    (∀ (v vOk : Bool) (b : PlannedBatch) (st : Agg) (sz : Option Nat),
        collectStep v vOk b st (WorkerResult.res (false, sz))
          = { st with failCount := st.failCount + 1 }) :=
  ⟨fun _ => rfl, fun _ _ => rfl, fun _ _ _ _ _ => rfl, fun _ _ _ _ _ => rfl⟩

/-- C9: a non-empty supplied password puts both the password argument and
the header-encryption argument on the 7z command line, and the password
arguments are only ever produced as that pair — a password argument is never
passed without `-mhe=on`.  (An empty password is falsy in the source's
`if password:` and is treated as no password at all.) -/
theorem c9_password_header_encryption (batchFiles : List String)
    (archiveN : String) (level : Nat) (pw : String) (split : Option String)
    (hpw : pw ≠ "") :
    ("-p" ++ pw) ∈ buildCmd batchFiles archiveN level (some pw) split ∧
    "-mhe=on" ∈ buildCmd batchFiles archiveN level (some pw) split ∧
    (∀ password : Option String,
      passwordArgs password = [] ∨
      ∃ q, password = some q ∧ passwordArgs password = ["-p" ++ q, "-mhe=on"]) := by
  have hne : (pw == "") = false := by simpa using hpw
  refine ⟨?_, ?_, ?_⟩
  · simp [buildCmd, passwordArgs, hne]
  · simp [buildCmd, passwordArgs, hne]
  · intro password
    match password with
    | none => exact Or.inl rfl
    | some q =>
      by_cases hq : (q == "") = true
      · exact Or.inl (by simp [passwordArgs, hq])
      · exact Or.inr ⟨q, rfl, by simp [passwordArgs, eq_false_of_ne_true hq]⟩

/-- C9 witness: the command line for a batch compressed with password
"secret" contains both arguments. -/
theorem c9_password_header_encryption_witness :
    ("-p" ++ "secret") ∈ buildCmd ["in/a.txt"] "out/archive_1.7z" 5 (some "secret") none ∧
    "-mhe=on" ∈ buildCmd ["in/a.txt"] "out/archive_1.7z" 5 (some "secret") none ∧
    (∀ password : Option String,
      passwordArgs password = [] ∨
      ∃ q, password = some q ∧ passwordArgs password = ["-p" ++ q, "-mhe=on"]) :=
  c9_password_header_encryption ["in/a.txt"] "out/archive_1.7z" 5 "secret" none
    (by decide)

/-- C10: the collection step appends a per-batch record to the metadata
archives list if and only if compression succeeded and verification either
passed or was disabled; in particular a batch demoted by a failed
verification appends nothing. -/
theorem c10_record_iff (v vOk : Bool) (b : PlannedBatch) (st : Agg)
    (success : Bool) (sz : Option Nat) :
    (collectStep v vOk b st (WorkerResult.res (success, sz))).archives
      = st.archives ++ (if success && (!v || vOk) then [mkRecord b sz] else []) := by
  cases success <;> cases v <;> cases vOk <;> simp [collectStep]

/-- C5 (amended): catalog membership.  A scanned entry contributes a catalog
file iff it is a regular file and is not excluded; in recursive mode a
pattern excludes it when it matches the base name or the full enumerated
path — the input folder joined with the relative path, not the root-relative
path alone — while in flat mode only direct children are scanned and a
pattern excludes one when it matches the base name. -/
theorem c5_exclusion_membership (root : String) (entries : List ScanEntry)
    (pats : List String) (f : FileEntry) :
    (f ∈ getFilesRecursive root entries pats ↔
      ∃ e ∈ entries, e.isFile = true ∧
        ¬(∃ p ∈ pats, fnmatch (baseName e.relPath) p = true ∨
            fnmatch (joinPath root e.relPath) p = true) ∧
        f = toFileEntry root e) ∧
    (f ∈ getFilesFlat root entries pats ↔
      ∃ e ∈ entries, isDirectChild e = true ∧ e.isFile = true ∧
        ¬(∃ p ∈ pats, fnmatch (baseName e.relPath) p = true) ∧
        f = toFileEntry root e) := by
  have hrec : ∀ e : ScanEntry, excludedRec root pats e = false ↔
      ¬(∃ p ∈ pats, fnmatch (baseName e.relPath) p = true ∨
          fnmatch (joinPath root e.relPath) p = true) := by
    intro e
    rw [← Bool.not_eq_true, excludedRec, List.any_eq_true]
    simp only [Bool.or_eq_true]
  have hflat : ∀ e : ScanEntry, excludedFlat pats e = false ↔
      ¬(∃ p ∈ pats, fnmatch (baseName e.relPath) p = true) := by
    intro e
    rw [← Bool.not_eq_true, excludedFlat, List.any_eq_true]
  constructor
  · simp only [getFilesRecursive, mem_sortFiles, List.mem_map, List.mem_filter,
      Bool.and_eq_true, Bool.not_eq_true']
    constructor
    · rintro ⟨e, ⟨he, hf, hex⟩, rfl⟩
      exact ⟨e, he, hf, (hrec e).mp hex, rfl⟩
    · rintro ⟨e, he, hf, hex, rfl⟩
      exact ⟨e, ⟨he, hf, (hrec e).mpr hex⟩, rfl⟩
  · simp only [getFilesFlat, mem_sortFiles, List.mem_map, List.mem_filter,
      Bool.and_eq_true, Bool.not_eq_true']
    constructor
    · rintro ⟨e, ⟨he, ⟨hd, hf⟩, hex⟩, rfl⟩
      exact ⟨e, he, hd, hf, (hflat e).mp hex, rfl⟩
    · rintro ⟨e, he, hd, hf, hex, rfl⟩
      exact ⟨e, ⟨he, ⟨hd, hf⟩, (hflat e).mpr hex⟩, rfl⟩

/-- C5 counterexample: scanning the root "data", the file whose
root-relative path is "sub/a.txt" is not excluded by the exclusion pattern
"sub/a.txt", even though its relative path matches the pattern exactly: the
source matches patterns against the folder-joined path "data/sub/a.txt" and
the base name "a.txt", neither of which matches. -/
theorem c5_exclusion_counterexample :
    fnmatch "sub/a.txt" "sub/a.txt" = true ∧
    fnmatch "a.txt" "sub/a.txt" = false ∧
    fnmatch "data/sub/a.txt" "sub/a.txt" = false ∧
    getFilesRecursive "data" [{ relPath := "sub/a.txt", isFile := true, size := 1 }]
        ["sub/a.txt"]
      = [{ path := "data/sub/a.txt", name := "a.txt", size := 1 }] := by decide

/-- C3 (amended): in dry-run mode the run performs planning and logging
only, never invoking the archive executor, the verification runner, the
confirmation prompt or the metadata export; it returns the count of batches
that would run, zero failures and zero output size.  The one filesystem
effect it may still perform is creating the output directory: the source
runs `mkdir(parents=True, exist_ok=True)` before the dry-run branch. -/
theorem c3_dry_run_effects (w : World) (p : RunParams) (hd : p.dryRun = true) :
    (compressInBatches w p).failCount = 0 ∧
    (compressInBatches w p).totalOutputSize = 0 ∧
    (compressInBatches w p).metadataOut = none ∧
    (compressInBatches w p).successCount
      = (computeBatches w.existsBefore p.overwrite p.outputFolder p.outputStem
          p.ext (catalogFiles w p) p.batchSize).length ∧
    (∀ e ∈ (compressInBatches w p).events, e = Event.mkdirOutput p.outputFolder) := by
  cases hf : (catalogFiles w p).isEmpty with
  | true =>
    have h0 : catalogFiles w p = [] := List.isEmpty_iff.mp hf
    refine ⟨?_, ?_, ?_, ?_, ?_⟩ <;> (simp [compressInBatches, hf, h0]; try rfl)
  | false =>
    cases hb : (computeBatches w.existsBefore p.overwrite p.outputFolder
        p.outputStem p.ext (catalogFiles w p) p.batchSize).isEmpty with
    | true =>
      have h0 := List.isEmpty_iff.mp hb
      refine ⟨?_, ?_, ?_, ?_, ?_⟩ <;> simp [compressInBatches, hf, hb, h0]
    | false =>
      refine ⟨?_, ?_, ?_, ?_, ?_⟩ <;> simp [compressInBatches, hf, hb, hd]

/-- C3 witness: the dry-run facts instantiated on a one-file catalog. -/
theorem c3_dry_run_effects_witness :
    (compressInBatches wBase pC3).failCount = 0 ∧
    (compressInBatches wBase pC3).totalOutputSize = 0 ∧
    (compressInBatches wBase pC3).metadataOut = none ∧
    (compressInBatches wBase pC3).successCount
      = (computeBatches wBase.existsBefore pC3.overwrite pC3.outputFolder
          pC3.outputStem pC3.ext (catalogFiles wBase pC3) pC3.batchSize).length ∧
    (∀ e ∈ (compressInBatches wBase pC3).events,
        e = Event.mkdirOutput pC3.outputFolder) :=
  c3_dry_run_effects wBase pC3 (by decide)

/-- C3 counterexample: a dry run over a non-empty catalog still creates the
output directory — `mkdir(parents=True, exist_ok=True)` at src/main.py line
396 runs before the dry-run branch — so dry-run mode is not free of
filesystem-creating side effects. -/
theorem c3_dry_run_counterexample :
    pC3.dryRun = true ∧
    (compressInBatches wBase pC3).events = [Event.mkdirOutput "out"] := by decide

/-- C4 (amended): after all workers finish, the total output size equals the
sum over all dispatched batches of the archive size reported on compression
success (truthy sizes); every compression success contributes, including a
batch later demoted to failure because its verification failed — the
demotion adjusts the success and failure counters but does not remove the
archive's size from the total. -/
theorem c4_output_size_sum (w : World) (v : Bool) (bs : List PlannedBatch) :
    (runBatches w v bs).1.totalOutputSize
      = (bs.map (fun b =>
          outContribution (compressBatch (w.spawn b.num) (w.statAfter b.num)))).sum :=
  runBatches_totalOut w v bs

/-- C4 counterexample: one batch compresses successfully into an archive of
size 100, then verification fails, so the run ends with zero successful
batches and one failure — yet `total_output_size` is 100, not the sum (0)
over successful batches only. -/
theorem c4_output_size_counterexample :
    (compressInBatches wC4 pC4).successCount = 0 ∧
    (compressInBatches wC4 pC4).failCount = 1 ∧
    (compressInBatches wC4 pC4).totalOutputSize = 100 := by decide

/-- C7: whenever a run exports metadata, the exported compression ratio
equals `(1 - total_output_size / total_input_size) * 100` when the total
input size is positive, and `0` when the total input size is zero. -/
theorem c7_compression_ratio (w : World) (p : RunParams) (m : Metadata)
    (h : (compressInBatches w p).metadataOut = some m) :
    m.ratioValue =
      if 0 < m.totalInputSize then
        (1 - (m.totalOutputSize : ℚ) / (m.totalInputSize : ℚ)) * 100
      else 0 := by
  cases hf : (catalogFiles w p).isEmpty with
  | true => simp [compressInBatches, hf] at h
  | false =>
    cases hb : (computeBatches w.existsBefore p.overwrite p.outputFolder
        p.outputStem p.ext (catalogFiles w p) p.batchSize).isEmpty with
    | true => simp [compressInBatches, hf, hb] at h
    | false =>
      cases hd : p.dryRun with
      | true => simp [compressInBatches, hf, hb, hd] at h
      | false =>
        cases hc : (!p.auto && w.confirmReply != "y") with
        | true => simp [compressInBatches, hf, hb, hd, hc] at h
        | false =>
          simp only [compressInBatches, hf, hb, hd, hc, Bool.false_eq_true,
            if_false] at h
          split at h
          · injection h with h
            subst h
            rfl
          · exact absurd h (by simp)

/-- C7 witness: the ratio fact instantiated on a run that compresses one
10-byte file into a 4-byte archive and exports metadata. -/
theorem c7_compression_ratio_witness :
    mC7.ratioValue =
      if 0 < mC7.totalInputSize then
        (1 - (mC7.totalOutputSize : ℚ) / (mC7.totalInputSize : ℚ)) * 100
      else 0 :=
  c7_compression_ratio wBase pC7 mC7 (by rfl)

/-- A ranCompress event can only come from a batch of the execution plan. -/
theorem ranCompress_mem_events {w : World} {p : RunParams} {n : Nat}
    (h : Event.ranCompress n ∈ (compressInBatches w p).events) :
    ∃ b ∈ computeBatches w.existsBefore p.overwrite p.outputFolder p.outputStem
        p.ext (catalogFiles w p) p.batchSize, b.num = n := by
  cases hf : (catalogFiles w p).isEmpty with
  | true => simp [compressInBatches, hf] at h
  | false =>
    cases hb : (computeBatches w.existsBefore p.overwrite p.outputFolder
        p.outputStem p.ext (catalogFiles w p) p.batchSize).isEmpty with
    | true => simp [compressInBatches, hf, hb] at h
    | false =>
      cases hd : p.dryRun with
      | true => simp [compressInBatches, hf, hb, hd] at h
      | false =>
        cases hc : (!p.auto && w.confirmReply != "y") with
        | true => simp [compressInBatches, hf, hb, hd, hc] at h
        | false =>
          cases hm : p.metadataFile with
          | none =>
            simp [compressInBatches, hf, hb, hd, hc, hm, runBatches] at h
            rcases foldl_execStep_events w p.verify _ _ _ n h with h' | h'
            · simp at h'
            · exact h'
          | some mf =>
            simp [compressInBatches, hf, hb, hd, hc, hm, runBatches] at h
            rcases foldl_execStep_events w p.verify _ _ _ n h with h' | h'
            · simp at h'
            · exact h'

/-- C6: with overwrite disabled, a planned batch whose target archive path
already exists is never dispatched to the archive executor, yet the
displayed plan total `total_batches` still counts every batch slice of the
catalog; and when the catalog is non-empty but every computed batch was
dropped this way, the run ends through the distinct "nothing to do" return
with zero successes and zero failures, which is a different exit signal from
the empty-catalog "no files found" return. -/
theorem c6_skip_if_exists (w : World) (p : RunParams) (hov : p.overwrite = false) :
    (∀ n, w.existsBefore (archivePath p.outputFolder p.outputStem p.ext n) = true →
      Event.ranCompress n ∉ (compressInBatches w p).events) ∧
    (catalogFiles w p ≠ [] →
      (compressInBatches w p).displayTotal
        = totalBatchCount (catalogFiles w p).length p.batchSize) ∧
    (catalogFiles w p ≠ [] →
      computeBatches w.existsBefore p.overwrite p.outputFolder p.outputStem p.ext
          (catalogFiles w p) p.batchSize = [] →
      (compressInBatches w p).path = ExitPath.nothingToDo ∧
      (compressInBatches w p).successCount = 0 ∧
      (compressInBatches w p).failCount = 0 ∧
      ExitPath.nothingToDo ≠ ExitPath.noFiles) := by
  refine ⟨?_, ?_, ?_⟩
  · intro n hex h
    obtain ⟨b, hbmem, hbn⟩ := ranCompress_mem_events h
    obtain ⟨hname, hcond⟩ := mem_computeBatches hbmem
    rw [hov] at hcond
    simp only [Bool.not_false, Bool.and_true] at hcond
    rw [hname, hbn] at hcond
    exact absurd hex (by simp [hcond])
  · intro hne
    have hf : (catalogFiles w p).isEmpty = false := by
      simpa [List.isEmpty_iff] using hne
    cases hb : (computeBatches w.existsBefore p.overwrite p.outputFolder
        p.outputStem p.ext (catalogFiles w p) p.batchSize).isEmpty with
    | true => simp [compressInBatches, hf, hb]
    | false =>
      cases hd : p.dryRun with
      | true => simp [compressInBatches, hf, hb, hd]
      | false =>
        cases hc : (!p.auto && w.confirmReply != "y") with
        | true => simp [compressInBatches, hf, hb, hd, hc]
        | false => simp [compressInBatches, hf, hb, hd, hc]
  · intro hne hall
    have hf : (catalogFiles w p).isEmpty = false := by
      simpa [List.isEmpty_iff] using hne
    have hb : (computeBatches w.existsBefore p.overwrite p.outputFolder
        p.outputStem p.ext (catalogFiles w p) p.batchSize).isEmpty = true := by
      simp [hall]
    refine ⟨?_, ?_, ?_, by decide⟩ <;> simp [compressInBatches, hf, hb]

/-- C6 witness: two one-file batches, the first target already present, so
batch 1 is skipped while the plan total stays 2. -/
theorem c6_skip_if_exists_witness :
    (∀ n, wC6.existsBefore (archivePath pC6.outputFolder pC6.outputStem pC6.ext n) = true →
      Event.ranCompress n ∉ (compressInBatches wC6 pC6).events) ∧
    (catalogFiles wC6 pC6 ≠ [] →
      (compressInBatches wC6 pC6).displayTotal
        = totalBatchCount (catalogFiles wC6 pC6).length pC6.batchSize) ∧
    (catalogFiles wC6 pC6 ≠ [] →
      computeBatches wC6.existsBefore pC6.overwrite pC6.outputFolder pC6.outputStem
          pC6.ext (catalogFiles wC6 pC6) pC6.batchSize = [] →
      (compressInBatches wC6 pC6).path = ExitPath.nothingToDo ∧
      (compressInBatches wC6 pC6).successCount = 0 ∧
      (compressInBatches wC6 pC6).failCount = 0 ∧
      ExitPath.nothingToDo ≠ ExitPath.noFiles) :=
  c6_skip_if_exists wC6 pC6 (by decide)

/-- Evaluation of the all-targets-exist case: with every archive already
present and overwrite off, the run ends "nothing to do" with zero counts
while the plan total still shows both batches. -/
theorem nothingToDo_evaluation :
    (compressInBatches wC6all pC6).path = ExitPath.nothingToDo ∧
    (compressInBatches wC6all pC6).successCount = 0 ∧
    (compressInBatches wC6all pC6).failCount = 0 ∧
    (compressInBatches wC6all pC6).displayTotal = 2 ∧
    (compressInBatches wC6all pC6).events = [Event.mkdirOutput "out"] := by decide

end BatchCompress
